import Mathlib

/-!
Verification development for the iofold GEPA adapter
(`src/sandbox/gepa/iofold_adapter.py`).

The adapter is shallowly embedded as pure Lean functions:

* Python dicts that the code only reads by key are association lists;
* Python floats carrying scores are modelled as `ℚ` (the adapter performs
  no arithmetic on scores, it only passes them through and compares them
  against the literals `0.0` and `1.0`, so this is exact);
* Python exceptions are modelled with `Except String`;
* the user supplied `eval_function` is an arbitrary function value that can
  either return a Python value or raise, and — since Python passes the task
  and metadata dicts by reference and the callee may mutate them in place —
  it also returns the post-call state of those two dicts (explicit state
  passing);
* the polling loop's wall clock deadline is discretised: `ticks` is the
  number of loop iterations the deadline still admits, and the successive
  HTTP responses of the status endpoint are given as a function from the
  fetch counter.

String-to-float coercion of numeric strings (Python's `float("1.5")`) is
not modelled: `float()` applied to a string is treated as raising, as it
does for every non-numeric string.
-/

namespace Iofold

/-- Association-list model of the opaque Python dicts carried by tasks,
metadata and candidates: the adapter only ever reads them with `.get`. -/
abbrev PyDict := List (String × String)

/-- Model of Python `d.get(k, dflt)` for `PyDict`. -/
def dictGetD (d : PyDict) (k dflt : String) : String :=
  match d.find? (fun p => p.1 == k) with
  | some p => p.2
  | none => dflt

/-- Source `DataInst`: a task payload plus task metadata. -/
structure DataInst where
  task : PyDict
  task_metadata : PyDict
deriving DecidableEq, Repr

/-- One structured content block inside a message, as inspected by
`_extract_agent_response`: the code asks `isinstance(block, dict)`,
`block.get("type")` and `block.get("text", "")`. -/
inductive JBlock where
  | dict (type : Option String) (text : String)
  | nonDict
deriving DecidableEq, Repr

/-- Message content: either a list of structured blocks, or any other
Python value, of which the code only ever takes `str(content)`; `scalar`
carries that string coercion. -/
inductive Content where
  | blocks (bs : List JBlock)
  | scalar (s : String)
deriving DecidableEq, Repr

/-- One message of a trace step: the code reads `msg.get("role")` and
`msg.get("content", "")` (the default is the empty string, i.e.
`scalar ""`). -/
structure Msg where
  role : Option String
  content : Content
deriving DecidableEq, Repr

/-- One `LangGraphExecutionStep`: the code reads
`step.get("messages_added", [])`. -/
structure Step where
  messages_added : List Msg
deriving DecidableEq, Repr

/-- One entry of the poll result list. `task_id` and `status` are read
with mandatory indexing in the source; `error`, `trace` and
`execution_time_ms` are read with `.get` and so are optional. -/
structure RolloutResult where
  task_id : String
  status : String
  error : Option String
  trace : Option (List Step)
  execution_time_ms : Option Int
deriving DecidableEq, Repr

/-- Python values that `eval_function` may return, as far as the
normalisation in `_run_eval` distinguishes them: numbers, strings, tuples
and `None`. -/
inductive PyVal where
  | num (q : ℚ)
  | str (s : String)
  | tup (items : List PyVal)
  | pynone

/-- Python `float(v)`. Numbers convert, everything else raises
(`TypeError`/`ValueError`); numeric strings are not modelled. -/
def pyFloat : PyVal → Except String ℚ
  | .num q => Except.ok q
  | .str _ => Except.error "could not convert string to float"
  | .tup _ => Except.error "float() argument must be a number, not tuple"
  | .pynone => Except.error "float() argument must be a number, not NoneType"

/-- Python `str(v)`. Total; only the string case is ever relied on by the
theorems below. -/
def pyStr : PyVal → String
  | .num q => toString q
  | .str s => s
  | .tup _ => "tuple"
  | .pynone => "None"

/-- The normalised trace view handed to `eval_function`:
`{"steps": trace, "agent_response": ...}`. -/
structure TraceDict where
  steps : List Step
  agent_response : String

/-- Result of one call to the user's `eval_function`: the returned value
(or the exception it raised), together with the post-call contents of the
task and metadata dicts it received by reference (Python callees may
mutate them in place). -/
structure EvalOut where
  ret : Except String PyVal
  task : PyDict
  task_metadata : PyDict

/-- The user supplied scoring entry point
`eval_function(task, task_metadata, trace, ctx)`; `ctx` is always passed
as `None` by the adapter, modelled as `Option PyVal` with value `none`. -/
abbrev EvalFn := PyDict → PyDict → TraceDict → Option PyVal → EvalOut

/-- Text parts collected from a block list: for each block that is a dict
whose `type` tag is `"text"`, its `text` entry (default `""`). Mirrors the
list comprehension in `_extract_agent_response`. -/
def blockTextParts (bs : List JBlock) : List String :=
  bs.filterMap fun b =>
    match b with
    | .dict ty tx => if ty = some "text" then some tx else none
    | .nonDict => none

/-- Rendering of a message's content, as `_extract_agent_response` does
it: a block list becomes the concatenation of its text parts, anything
else is `str(content)`. -/
def contentText : Content → String
  | .blocks bs => String.join (blockTextParts bs)
  | .scalar s => s

/-- Inner loop of `_extract_agent_response`: scan messages (already
reversed) and return the rendered content of the first message whose role
is `"assistant"`. -/
def lastAssistantMsgs : List Msg → Option String
  | [] => none
  | m :: rest =>
      if m.role = some "assistant" then some (contentText m.content)
      else lastAssistantMsgs rest

/-- Outer loop of `_extract_agent_response`: scan steps (already
reversed), each step's messages from the end backward. -/
def lastAssistantSteps : List Step → Option String
  | [] => none
  | st :: rest =>
      match lastAssistantMsgs st.messages_added.reverse with
      | some s => some s
      | none => lastAssistantSteps rest

/-- Source `_extract_agent_response`: walk the trace backwards and return
the last assistant message's text, or the empty string. -/
def extract_agent_response (trace : List Step) : String :=
  (lastAssistantSteps trace.reverse).getD ""

/-- Normalisation of `eval_function`'s return value in `_run_eval`:
`float(result[0]), str(result[1])` for tuples, `float(result), ""`
otherwise; any conversion or indexing failure is a raised exception. -/
def normalizeEvalResult : PyVal → Except String (ℚ × String)
  | .tup items =>
      match items.get? 0 with
      | none => Except.error "tuple index out of range"
      | some r0 =>
          match pyFloat r0 with
          | Except.error e => Except.error e
          | Except.ok q =>
              match items.get? 1 with
              | none => Except.error "tuple index out of range"
              | some r1 => Except.ok (q, pyStr r1)
  | v =>
      match pyFloat v with
      | Except.error e => Except.error e
      | Except.ok q => Except.ok (q, "")

/-- Source `_run_eval`: build the trace dict, call `eval_function`, and
normalise its return value. The second and third components are the
post-call contents of the task and metadata dicts (the callee received
them by reference). -/
def _run_eval (evalFn : EvalFn) (task task_metadata : PyDict) (trace : List Step) :
    Except String (ℚ × String) × PyDict × PyDict :=
  let trace_dict : TraceDict := ⟨trace, extract_agent_response trace⟩
  let out := evalFn task task_metadata trace_dict none
  (match out.ret with
   | Except.ok v => normalizeEvalResult v
   | Except.error e => Except.error e,
   out.task, out.task_metadata)

/-- One output entry of an `EvaluationBatch`: either the dict
`{"error": msg}` or the dict `{"trace": trace, "feedback": feedback}`. -/
inductive Output where
  | error (msg : String)
  | ok (trace : List Step) (feedback : String)
deriving DecidableEq, Repr

/-- Python `output.get("feedback", "")` on an output dict. -/
def Output.feedbackField : Output → String
  | .error _ => ""
  | .ok _ fb => fb

/-- One trajectory record appended by `evaluate` when trace capture is
requested: the failure shape carries the error and raw status, the
success shape carries trace, score, feedback and timing. -/
inductive Trajectory where
  | failure (task task_metadata : PyDict) (error : String) (status : String)
  | success (task task_metadata : PyDict) (trace : List Step) (score : ℚ)
      (feedback : String) (execution_time_ms : Option Int)
deriving DecidableEq, Repr

/-- Python `trajectory.get("task", {})`: both trajectory shapes carry a
`task` entry. -/
def Trajectory.taskField : Trajectory → PyDict
  | .failure t _ _ _ => t
  | .success t _ _ _ _ _ => t

/-- Python `trajectory.get("task_metadata", {})`. -/
def Trajectory.metadataField : Trajectory → PyDict
  | .failure _ m _ _ => m
  | .success _ m _ _ _ _ => m

/-- Source `EvaluationBatch`: three position-aligned sequences,
trajectories present iff trace capture was requested. -/
structure EvaluationBatch where
  outputs : List Output
  scores : List ℚ
  trajectories : Option (List Trajectory)
deriving DecidableEq, Repr

/-- Everything the body of `evaluate`'s loop produces for one batch
position: the appended output, score and trajectory record, and the
post-iteration state of the batch element (its dicts may have been
mutated by `eval_function`). -/
structure StepOut where
  output : Output
  score : ℚ
  traj : Trajectory
  inst : DataInst
deriving DecidableEq, Repr

/-- The synthesized task identifier for batch position `i`. -/
def taskIdOf (i : ℕ) : String := "task_" ++ toString i

/-- The body of `evaluate`'s reconciliation loop for batch position `i`:
look up the first result whose `task_id` matches, emit an error output
with score `0.0` for a missing or non-completed result, otherwise run the
eval locally, converting a raised exception into score `0.0` with an
`"Eval error: ..."` feedback. -/
def evalStep (evalFn : EvalFn) (results : List RolloutResult) (inst : DataInst) (i : ℕ) :
    StepOut :=
  let task_id := taskIdOf i
  match results.find? (fun r => r.task_id == task_id) with
  | none =>
      { output := Output.error "Task not found", score := 0,
        traj := Trajectory.failure inst.task inst.task_metadata "Task not found" "not_found",
        inst := inst }
  | some result =>
      if result.status ≠ "completed" then
        let error_msg := result.error.getD "Task not completed"
        { output := Output.error error_msg, score := 0,
          traj := Trajectory.failure inst.task inst.task_metadata error_msg result.status,
          inst := inst }
      else
        let trace := result.trace.getD []
        let r := _run_eval evalFn inst.task inst.task_metadata trace
        let sf : ℚ × String :=
          match r.1 with
          | Except.ok p => p
          | Except.error e => (0, "Eval error: " ++ e)
        { output := Output.ok trace sf.2, score := sf.1,
          traj := Trajectory.success r.2.1 r.2.2 trace sf.1 sf.2 result.execution_time_ms,
          inst := ⟨r.2.1, r.2.2⟩ }

/-- The reconciliation loop of `evaluate`, iterating the original batch
positions in order (appending to the four accumulator lists is modelled
as building the list of per-position `StepOut`s). -/
def evalLoop (evalFn : EvalFn) (results : List RolloutResult) :
    List DataInst → ℕ → List StepOut
  | [], _ => []
  | inst :: rest, i => evalStep evalFn results inst i :: evalLoop evalFn results rest (i + 1)

/-- Source `evaluate`, from the point where the poll result list is in
hand (steps 3–5 of its docstring): reconcile every batch position against
`results`, score locally, and assemble the `EvaluationBatch`; trajectories
are `None` unless `capture_traces`. The second component is the post-call
state of the batch (its elements' dicts were passed by reference to
`eval_function`). `candidate` is only read by the submission step and is
never written. -/
def evaluate (evalFn : EvalFn) (batch : List DataInst) (candidate : PyDict)
    (capture_traces : Bool) (results : List RolloutResult) :
    EvaluationBatch × List DataInst :=
  let steps := evalLoop evalFn results batch 0
  ({ outputs := steps.map StepOut.output,
     scores := steps.map StepOut.score,
     trajectories := if capture_traces then some (steps.map StepOut.traj) else none },
   steps.map StepOut.inst)

/-- One record of the reflective dataset: the fields of the dict appended
by `make_reflective_dataset` for one underperforming position and one
component. -/
structure ReflectiveRecord where
  task : PyDict
  task_metadata : PyDict
  output : Output
  score : ℚ
  current_text : String
  feedback : String
deriving DecidableEq, Repr

/-- The reflective dataset: a Python dict from component name to record
list, modelled as an association list in insertion order. -/
abbrev ReflectiveData := List (String × List ReflectiveRecord)

/-- Python dict assignment `d[k] = v` on a `ReflectiveData`: overwrite in
place if the key exists, otherwise append at the end (insertion order). -/
def rdataSet (d : ReflectiveData) (k : String) (v : List ReflectiveRecord) : ReflectiveData :=
  if d.any (fun p => p.1 == k) then d.map (fun p => if p.1 = k then (p.1, v) else p)
  else d ++ [(k, v)]

/-- The dict comprehension `{comp: [] for comp in components_to_update}`. -/
def rdataInit (comps : List String) : ReflectiveData :=
  comps.foldl (fun d c => rdataSet d c []) []

/-- Python `d[k].append(r)`: append `r` to the list stored under `k`. The
source only applies this to keys the dict was initialised with, so a
missing key (Python's `KeyError`) cannot occur and is a no-op here. -/
def rdataAppend (d : ReflectiveData) (k : String) (r : ReflectiveRecord) : ReflectiveData :=
  d.map (fun p => if p.1 = k then (p.1, p.2 ++ [r]) else p)

/-- The record dict built by `make_reflective_dataset` for position data
`(tr, o, s)` and component `comp`: trajectory task/metadata with `{}`
fallback, the output, the score, the candidate's current text for the
component, and the output's embedded feedback. -/
def mkReflectiveRecord (candidate : PyDict) (tr : Option Trajectory) (o : Output) (s : ℚ)
    (comp : String) : ReflectiveRecord :=
  { task := match tr with | some t => t.taskField | none => []
    task_metadata := match tr with | some t => t.metadataField | none => []
    output := o
    score := s
    current_text := dictGetD candidate comp ""
    feedback := o.feedbackField }

/-- The per-position trajectory lookup of `make_reflective_dataset`:
`eval_batch.trajectories[i] if eval_batch.trajectories else {}`. A `None`
or empty trajectory list is falsy and yields the `{}` fallback; a
non-empty list is indexed, raising `IndexError` when `i` is out of
range. -/
def trajAt (trajs : Option (List Trajectory)) (i : ℕ) : Except String (Option Trajectory) :=
  match trajs with
  | none => Except.ok none
  | some [] => Except.ok none
  | some ts =>
      match ts.get? i with
      | some t => Except.ok (some t)
      | none => Except.error "list index out of range"

/-- The main loop of `make_reflective_dataset` over
`enumerate(zip(outputs, scores))`: a position whose score is strictly
below `1.0` contributes, for every requested component, one record
appended to that component's list. -/
def mrdsLoop (candidate : PyDict) (comps : List String) (trajs : Option (List Trajectory)) :
    List (Output × ℚ) → ℕ → ReflectiveData → Except String ReflectiveData
  | [], _, d => Except.ok d
  | (o, s) :: rest, i, d =>
      if s < 1 then
        match trajAt trajs i with
        | Except.error e => Except.error e
        | Except.ok tr =>
            mrdsLoop candidate comps trajs rest (i + 1)
              (comps.foldl (fun d2 c => rdataAppend d2 c (mkReflectiveRecord candidate tr o s c)) d)
      else mrdsLoop candidate comps trajs rest (i + 1) d

/-- Source `make_reflective_dataset`: initialise one empty list per
requested component, then walk the position-aligned outputs and scores. -/
def make_reflective_dataset (candidate : PyDict) (eval_batch : EvaluationBatch)
    (components_to_update : List String) : Except String ReflectiveData :=
  mrdsLoop candidate components_to_update eval_batch.trajectories
    (eval_batch.outputs.zip eval_batch.scores) 0 (rdataInit components_to_update)

/-- Modelled from the spec's words, for comparison with
`make_reflective_dataset` (claim C7): the trajectory for position `i` is
the captured one when trajectories are present, and nothing otherwise. -/
def specTrajAt (trajs : Option (List Trajectory)) (i : ℕ) : Option Trajectory :=
  match trajs with
  | none => none
  | some ts => ts.get? i

/-- Modelled from the spec's words, for comparison with
`make_reflective_dataset` (claim C7): the records one component receives —
for every position whose score is strictly less than `1.0`, one record
carrying that position's trajectory data (or empty task/metadata when no
trajectories were captured), output, score, the candidate's current text
for the component, and the output's embedded feedback. -/
def specComponentRecords (candidate : PyDict) (trajs : Option (List Trajectory)) (comp : String) :
    List (Output × ℚ) → ℕ → List ReflectiveRecord
  | [], _ => []
  | (o, s) :: rest, i =>
      (if s < 1 then [mkReflectiveRecord candidate (specTrajAt trajs i) o s comp] else []) ++
        specComponentRecords candidate trajs comp rest (i + 1)

/-- One response of the batch status endpoint:
`{"status": ..., "results": [...]}`, both read with `.get`. -/
structure PollResponse where
  status : Option String
  results : List RolloutResult
deriving Repr

/-- The terminal-status test of the polling loop:
`status in ("completed", "partial", "failed")`. -/
def terminalStatus (s : Option String) : Bool :=
  s == some "completed" || s == some "partial" || s == some "failed"

/-- Source `_poll_for_completion`, with the wall clock discretised:
`ticks` is the number of loop iterations the deadline still admits and
`k` counts the status fetches issued so far. While the deadline admits an
iteration, fetch; a transport failure is fatal; a terminal status returns
that response's result list; otherwise sleep and loop. Once the deadline
has elapsed, perform one final fetch and return whatever result list it
carries — no timeout error is ever raised. -/
def _poll_for_completion (fetch : ℕ → Except String PollResponse) :
    ℕ → ℕ → Except String (List RolloutResult)
  | 0, k =>
      (match fetch k with
       | Except.error e => Except.error e
       | Except.ok data => Except.ok data.results)
  | t + 1, k =>
      (match fetch k with
       | Except.error e => Except.error e
       | Except.ok data =>
           if terminalStatus data.status then Except.ok data.results
           else _poll_for_completion fetch t (k + 1))

/-- The whole of `evaluate` including its network phases: the submission
outcome (a batch id, or a fatal transport error) and the poll phase
precede the local reconciliation; a fatal error in either phase
propagates unmodified. -/
def evaluate_run (evalFn : EvalFn) (batch : List DataInst) (candidate : PyDict)
    (capture_traces : Bool) (submit : Except String String)
    (fetch : ℕ → Except String PollResponse) (ticks : ℕ) :
    Except String (EvaluationBatch × List DataInst) :=
  match submit with
  | Except.error e => Except.error e
  | Except.ok _bid =>
      match _poll_for_completion fetch ticks 0 with
      | Except.error e => Except.error e
      | Except.ok results =>
          Except.ok (evaluate evalFn batch candidate capture_traces results)

/-! Section: General lemmas about the reconciliation loop -/

theorem evalLoop_length (evalFn : EvalFn) (results : List RolloutResult) :
    ∀ (batch : List DataInst) (i : ℕ), (evalLoop evalFn results batch i).length = batch.length := by
  intro batch
  induction batch with
  | nil => intro i; rfl
  | cons inst rest ih => intro i; simp [evalLoop, ih]

theorem evalLoop_get? (evalFn : EvalFn) (results : List RolloutResult) :
    ∀ (batch : List DataInst) (k i : ℕ),
      (evalLoop evalFn results batch i).get? k =
        (batch.get? k).map (fun inst => evalStep evalFn results inst (i + k)) := by
  intro batch
  induction batch with
  | nil => intro k i; rfl
  | cons inst rest ih =>
      intro k i
      cases k with
      | zero => rfl
      | succ k =>
          have h := ih k (i + 1)
          simp only [evalLoop, List.get?_cons_succ, h]
          have : i + 1 + k = i + (k + 1) := by omega
          rw [this]

theorem evaluate_outputs_get? (evalFn : EvalFn) (batch : List DataInst) (candidate : PyDict)
    (capture_traces : Bool) (results : List RolloutResult) (k : ℕ) :
    (evaluate evalFn batch candidate capture_traces results).1.outputs.get? k =
      (batch.get? k).map (fun inst => (evalStep evalFn results inst k).output) := by
  simp only [evaluate, List.get?_map, evalLoop_get?, Nat.zero_add, Option.map_map]
  rfl

theorem evaluate_scores_get? (evalFn : EvalFn) (batch : List DataInst) (candidate : PyDict)
    (capture_traces : Bool) (results : List RolloutResult) (k : ℕ) :
    (evaluate evalFn batch candidate capture_traces results).1.scores.get? k =
      (batch.get? k).map (fun inst => (evalStep evalFn results inst k).score) := by
  simp only [evaluate, List.get?_map, evalLoop_get?, Nat.zero_add, Option.map_map]
  rfl

theorem evalStep_not_found (evalFn : EvalFn) (results : List RolloutResult) (inst : DataInst)
    (i : ℕ) (h : results.find? (fun r => r.task_id == taskIdOf i) = none) :
    evalStep evalFn results inst i =
      { output := Output.error "Task not found", score := 0,
        traj := Trajectory.failure inst.task inst.task_metadata "Task not found" "not_found",
        inst := inst } := by
  simp only [evalStep, h]

/-! Section: Claim C1 -/

/-- Claim C1: a successful call to `evaluate` returns an `EvaluationBatch`
whose `outputs` and `scores` have exactly the input batch's length, and
whose `trajectories` is `none` when `capture_traces` is false and a list
of the batch's length when it is true — for every poll outcome, i.e.
whatever the order, completeness or malformedness of the individual
results. -/
theorem C1_successful_evaluate_lengths (evalFn : EvalFn) (batch : List DataInst)
    (candidate : PyDict) (capture_traces : Bool) (submit : Except String String)
    (fetch : ℕ → Except String PollResponse) (ticks : ℕ)
    (eb : EvaluationBatch) (batch' : List DataInst)
    (hok : evaluate_run evalFn batch candidate capture_traces submit fetch ticks =
      Except.ok (eb, batch')) :
    eb.outputs.length = batch.length ∧ eb.scores.length = batch.length ∧
    eb.trajectories.map List.length = if capture_traces then some batch.length else none := by
  unfold evaluate_run at hok
  cases submit with
  | error e => exact absurd hok (by simp)
  | ok bid =>
      cases hpoll : _poll_for_completion fetch ticks 0 with
      | error e => rw [hpoll] at hok; exact absurd hok (by simp)
      | ok results =>
          rw [hpoll] at hok
          have heb : eb = (evaluate evalFn batch candidate capture_traces results).1 := by
            have h2 : evaluate evalFn batch candidate capture_traces results = (eb, batch') :=
              (Except.ok.injEq _ _).mp hok
            exact (congrArg Prod.fst h2).symm
          subst heb
          refine ⟨?_, ?_, ?_⟩
          · simp [evaluate, evalLoop_length]
          · simp [evaluate, evalLoop_length]
          · cases capture_traces with
            | false => simp [evaluate]
            | true => simp [evaluate, evalLoop_length]

/-- Sample scoring entry point that returns the constant bare score `1`
and leaves its argument dicts untouched. -/
def sampleFn : EvalFn := fun t m _ _ => ⟨Except.ok (PyVal.num 1), t, m⟩

/-- Sample one-element batch. -/
def sampleBatch : List DataInst := [⟨[], []⟩]

/-- Witness for claim C1 at a concrete successful run: batch of one task,
trace capture on, empty result list. -/
theorem C1_witness :
    (EvaluationBatch.mk [Output.error "Task not found"] [0]
        (some [Trajectory.failure [] [] "Task not found" "not_found"])).outputs.length =
      sampleBatch.length ∧
    (EvaluationBatch.mk [Output.error "Task not found"] [0]
        (some [Trajectory.failure [] [] "Task not found" "not_found"])).scores.length =
      sampleBatch.length ∧
    (EvaluationBatch.mk [Output.error "Task not found"] [0]
        (some [Trajectory.failure [] [] "Task not found" "not_found"])).trajectories.map
        List.length = if true then some sampleBatch.length else none :=
  C1_successful_evaluate_lengths sampleFn sampleBatch [] true (Except.ok "b")
    (fun _ => Except.ok ⟨some "completed", []⟩) 0 _ _ rfl

/-! Section: Claim C2 -/

theorem poll_no_terminal (fetch : ℕ → Except String PollResponse) (resp : ℕ → PollResponse)
    (hfetch : ∀ k, fetch k = Except.ok (resp k)) :
    ∀ (t k : ℕ), (∀ j, j < t → terminalStatus (resp (k + j)).status = false) →
      _poll_for_completion fetch t k = Except.ok (resp (k + t)).results := by
  intro t
  induction t with
  | zero =>
      intro k _
      simp [_poll_for_completion, hfetch k]
  | succ t ih =>
      intro k h
      have h0 : terminalStatus (resp k).status = false := by
        have := h 0 (by omega)
        simpa using this
      have hrec := ih (k + 1) (fun j hj => by
        have := h (j + 1) (by omega)
        have e : k + (j + 1) = k + 1 + j := by omega
        rwa [e] at this)
      have e : k + 1 + t = k + (t + 1) := by omega
      rw [e] at hrec
      simp [_poll_for_completion, hfetch k, h0, hrec]

/-- Claim C2: when the polling deadline elapses (`ticks` loop iterations,
none of which observed a terminal status) and every status fetch succeeds,
`_poll_for_completion` performs one final fetch and returns that
response's result list without raising any timeout error; the whole
`evaluate` run then completes successfully on those partial results, and
every batch position with no matching result entry is scored `0.0` with an
error-carrying output. -/
theorem C2_timeout_returns_partial_results (evalFn : EvalFn) (batch : List DataInst)
    (candidate : PyDict) (capture_traces : Bool) (bid : String)
    (fetch : ℕ → Except String PollResponse) (resp : ℕ → PollResponse) (ticks : ℕ)
    (hfetch : ∀ k, fetch k = Except.ok (resp k))
    (hnoterm : ∀ k, k < ticks → terminalStatus (resp k).status = false) :
    _poll_for_completion fetch ticks 0 = Except.ok (resp ticks).results ∧
    evaluate_run evalFn batch candidate capture_traces (Except.ok bid) fetch ticks =
      Except.ok (evaluate evalFn batch candidate capture_traces (resp ticks).results) ∧
    (∀ i inst, batch.get? i = some inst →
      (resp ticks).results.find? (fun r => r.task_id == taskIdOf i) = none →
      (evaluate evalFn batch candidate capture_traces (resp ticks).results).1.scores.get? i =
          some 0 ∧
      (evaluate evalFn batch candidate capture_traces (resp ticks).results).1.outputs.get? i =
          some (Output.error "Task not found")) := by
  have hpoll : _poll_for_completion fetch ticks 0 = Except.ok (resp ticks).results := by
    have := poll_no_terminal fetch resp hfetch ticks 0 (fun j hj => by
      simpa using hnoterm j hj)
    simpa using this
  refine ⟨hpoll, ?_, ?_⟩
  · unfold evaluate_run
    rw [hpoll]
  · intro i inst hinst hnone
    constructor
    · rw [evaluate_scores_get?, hinst]
      simp [evalStep_not_found evalFn _ inst i hnone]
    · rw [evaluate_outputs_get?, hinst]
      simp [evalStep_not_found evalFn _ inst i hnone]

/-- Witness for claim C2: two poll iterations that both see a `"pending"`
status, then a final fetch returning an empty result list; the single
batch position has no result and is scored `0.0`. -/
theorem C2_witness :
    _poll_for_completion (fun _ => Except.ok ⟨some "pending", []⟩) 2 0 = Except.ok [] ∧
    evaluate_run sampleFn sampleBatch [] false (Except.ok "b")
        (fun _ => Except.ok ⟨some "pending", []⟩) 2 =
      Except.ok (evaluate sampleFn sampleBatch [] false []) ∧
    (evaluate sampleFn sampleBatch [] false []).1.scores.get? 0 = some 0 ∧
    (evaluate sampleFn sampleBatch [] false []).1.outputs.get? 0 =
      some (Output.error "Task not found") :=
  let h := C2_timeout_returns_partial_results sampleFn sampleBatch [] false "b"
    (fun _ => Except.ok ⟨some "pending", []⟩) (fun _ => ⟨some "pending", []⟩) 2
    (fun _ => rfl) (fun _ _ => rfl)
  ⟨h.1, h.2.1, (h.2.2 0 ⟨[], []⟩ rfl rfl).1, (h.2.2 0 ⟨[], []⟩ rfl rfl).2⟩

/-! Section: Claim C10 -/

theorem evalLoop_congr (evalFn : EvalFn) (results results' : List RolloutResult)
    (hfind : ∀ tid, results.find? (fun r => r.task_id == tid) =
      results'.find? (fun r => r.task_id == tid)) :
    ∀ (batch : List DataInst) (i : ℕ),
      evalLoop evalFn results batch i = evalLoop evalFn results' batch i := by
  intro batch
  induction batch with
  | nil => intro i; rfl
  | cons inst rest ih =>
      intro i
      have hstep : evalStep evalFn results inst i = evalStep evalFn results' inst i := by
        simp only [evalStep, hfind (taskIdOf i)]
      simp [evalLoop, hstep, ih]

theorem find?_drop_later_dup (r r' : RolloutResult) (A B C : List RolloutResult)
    (h : r'.task_id = r.task_id) (tid : String) :
    (A ++ r :: (B ++ r' :: C)).find? (fun x => x.task_id == tid) =
    (A ++ r :: (B ++ C)).find? (fun x => x.task_id == tid) := by
  by_cases hr : r.task_id = tid
  · have hp : (fun (x : RolloutResult) => x.task_id == tid) r = true := by simp [hr]
    rw [List.find?_append, List.find?_append,
      @List.find?_cons_of_pos _ (fun x => x.task_id == tid) r (B ++ r' :: C) hp,
      @List.find?_cons_of_pos _ (fun x => x.task_id == tid) r (B ++ C) hp]
  · have hp : ¬ (fun (x : RolloutResult) => x.task_id == tid) r = true := by simp [hr]
    have hp' : ¬ (fun (x : RolloutResult) => x.task_id == tid) r' = true := by
      simp [h, hr]
    rw [List.find?_append, List.find?_append,
      @List.find?_cons_of_neg _ (fun x => x.task_id == tid) r (B ++ r' :: C) hp,
      @List.find?_cons_of_neg _ (fun x => x.task_id == tid) r (B ++ C) hp,
      List.find?_append, List.find?_append,
      @List.find?_cons_of_neg _ (fun x => x.task_id == tid) r' C hp']

/-- Claim C10: a later result entry bearing the same task identifier as an
earlier one is ignored: deleting it changes nothing about `evaluate`'s
result, so each position is reconciled with the first matching entry in
the result list's order. -/
theorem C10_first_matching_entry_wins (evalFn : EvalFn) (batch : List DataInst)
    (candidate : PyDict) (capture_traces : Bool) (A B C : List RolloutResult)
    (r r' : RolloutResult) (h : r'.task_id = r.task_id) :
    evaluate evalFn batch candidate capture_traces (A ++ r :: (B ++ r' :: C)) =
    evaluate evalFn batch candidate capture_traces (A ++ r :: (B ++ C)) := by
  have hl := evalLoop_congr evalFn (A ++ r :: (B ++ r' :: C)) (A ++ r :: (B ++ C))
    (find?_drop_later_dup r r' A B C h) batch 0
  simp only [evaluate, hl]

/-- Sample completed result for `task_0` with an empty trace. -/
def sampleResult0 : RolloutResult := ⟨"task_0", "completed", none, some [], none⟩

/-- Sample failed duplicate result for `task_0`. -/
def sampleResult0' : RolloutResult := ⟨"task_0", "failed", some "late duplicate", none, none⟩

/-- Witness for claim C10: a result list carrying a completed `task_0`
entry followed by a failed duplicate evaluates exactly as the list without
the duplicate. -/
theorem C10_witness :
    evaluate sampleFn sampleBatch [] false [sampleResult0, sampleResult0'] =
    evaluate sampleFn sampleBatch [] false [sampleResult0] :=
  C10_first_matching_entry_wins sampleFn sampleBatch [] false [] [] []
    sampleResult0 sampleResult0' rfl

/-! Section: Claim C3 -/

/-- Sample one-element result list whose only entry is a completed
`task_1`. -/
def sampleResults1 : List RolloutResult := [⟨"task_1", "completed", none, some [], none⟩]

/-- Sample two-element batch with distinguishable tasks. -/
def sampleInstA : DataInst := ⟨[("k", "a")], []⟩

/-- Second sample batch element. -/
def sampleInstB : DataInst := ⟨[("k", "b")], []⟩

/-- Counterexample to claim C3 as stated: position `0` is missing from the
result list (and duly gets the error output and score `0.0`), but position
`1` is NOT computed "exactly as it would be if position 0 were absent from
the batch": removing position 0 shifts position 1 to index 0, so it is
reconciled against `task_0` instead of `task_1` and its score changes from
`1` to `0`. -/
theorem C3_counterexample :
    sampleResults1.find? (fun r => r.task_id == taskIdOf 0) = none ∧
    (evaluate sampleFn [sampleInstA, sampleInstB] [] false sampleResults1).1.outputs.get? 0 =
      some (Output.error "Task not found") ∧
    (evaluate sampleFn [sampleInstA, sampleInstB] [] false sampleResults1).1.scores.get? 0 =
      some 0 ∧
    (evaluate sampleFn [sampleInstA, sampleInstB] [] false sampleResults1).1.scores.get? 1 ≠
      (evaluate sampleFn [sampleInstB] [] false sampleResults1).1.scores.get? 0 := by
  refine ⟨rfl, rfl, rfl, ?_⟩
  decide

/-- Claim C3 amended: a position `i` whose result entry is absent gets
`output = {"error": "Task not found"}` and score `0.0`; one whose entry
has a non-completed status gets `output = {"error": <its error message,
default "Task not completed">}` and score `0.0`; and every other position
is unaffected by position `i`: its output and score are unchanged under
any change of the batch element at `i` and of the result entries bearing
identifier `task_i`. -/
theorem C3_failed_position_isolated (evalFn : EvalFn) (candidate : PyDict)
    (capture_traces : Bool) (i : ℕ) (batch batch' : List DataInst)
    (results results' : List RolloutResult)
    (hb : ∀ j, j ≠ i → batch.get? j = batch'.get? j)
    (hr : ∀ j, j ≠ i → results.find? (fun x => x.task_id == taskIdOf j) =
      results'.find? (fun x => x.task_id == taskIdOf j)) :
    (∀ inst, batch.get? i = some inst →
      (results.find? (fun x => x.task_id == taskIdOf i) = none →
        (evaluate evalFn batch candidate capture_traces results).1.outputs.get? i =
          some (Output.error "Task not found") ∧
        (evaluate evalFn batch candidate capture_traces results).1.scores.get? i = some 0) ∧
      (∀ r, results.find? (fun x => x.task_id == taskIdOf i) = some r →
        r.status ≠ "completed" →
        (evaluate evalFn batch candidate capture_traces results).1.outputs.get? i =
          some (Output.error (r.error.getD "Task not completed")) ∧
        (evaluate evalFn batch candidate capture_traces results).1.scores.get? i = some 0)) ∧
    (∀ j, j ≠ i →
      (evaluate evalFn batch candidate capture_traces results).1.outputs.get? j =
        (evaluate evalFn batch' candidate capture_traces results').1.outputs.get? j ∧
      (evaluate evalFn batch candidate capture_traces results).1.scores.get? j =
        (evaluate evalFn batch' candidate capture_traces results').1.scores.get? j) := by
  constructor
  · intro inst hinst
    constructor
    · intro hnone
      rw [evaluate_outputs_get?, evaluate_scores_get?, hinst]
      simp [evalStep_not_found evalFn _ inst i hnone]
    · intro r hfound hstatus
      have hstep : evalStep evalFn results inst i =
          { output := Output.error (r.error.getD "Task not completed"), score := 0,
            traj := Trajectory.failure inst.task inst.task_metadata
              (r.error.getD "Task not completed") r.status,
            inst := inst } := by
        simp only [evalStep, hfound]
        rw [if_pos hstatus]
      rw [evaluate_outputs_get?, evaluate_scores_get?, hinst]
      simp [hstep]
  · intro j hj
    have hstep : ∀ inst, evalStep evalFn results inst j = evalStep evalFn results' inst j := by
      intro inst
      simp only [evalStep, hr j hj]
    rw [evaluate_outputs_get?, evaluate_outputs_get?, evaluate_scores_get?,
      evaluate_scores_get?, hb j hj]
    cases batch'.get? j with
    | none => exact ⟨rfl, rfl⟩
    | some inst => simp [hstep inst]

/-- Witness for claim C3 (amended): batch of two tasks where only
`task_1` completed; position `0` is missing and scored `0.0`, and the
comparison hypotheses are instantiated reflexively. -/
theorem C3_witness :
    ((evaluate sampleFn [sampleInstA, sampleInstB] [] false sampleResults1).1.outputs.get? 0 =
        some (Output.error "Task not found") ∧
      (evaluate sampleFn [sampleInstA, sampleInstB] [] false sampleResults1).1.scores.get? 0 =
        some 0) ∧
    ((evaluate sampleFn [sampleInstA, sampleInstB] [] false sampleResults1).1.outputs.get? 1 =
        (evaluate sampleFn [sampleInstA, sampleInstB] [] false sampleResults1).1.outputs.get? 1 ∧
      (evaluate sampleFn [sampleInstA, sampleInstB] [] false sampleResults1).1.scores.get? 1 =
        (evaluate sampleFn [sampleInstA, sampleInstB] [] false sampleResults1).1.scores.get? 1) :=
  let h := C3_failed_position_isolated sampleFn [] false 0 [sampleInstA, sampleInstB]
    [sampleInstA, sampleInstB] sampleResults1 sampleResults1
    (fun _ _ => rfl) (fun _ _ => rfl)
  ⟨(h.1 sampleInstA rfl).1 rfl, h.2 1 (by decide)⟩

/-! Section: Claim C4 -/

/-- Claim C4: when scoring a completed task raises (either inside
`eval_function` itself or while normalising its return value), `evaluate`
converts that position to score `0.0` with feedback
`"Eval error: <message>"` inside a normal trace/feedback output, keeps the
full batch length, and still computes every position from its own data —
the failure never propagates out of `evaluate`. -/
theorem C4_scoring_error_contained (evalFn : EvalFn) (batch : List DataInst)
    (candidate : PyDict) (capture_traces : Bool) (results : List RolloutResult)
    (i : ℕ) (inst : DataInst) (r : RolloutResult) (e : String)
    (hinst : batch.get? i = some inst)
    (hfound : results.find? (fun x => x.task_id == taskIdOf i) = some r)
    (hstatus : r.status = "completed")
    (herr : (_run_eval evalFn inst.task inst.task_metadata (r.trace.getD [])).1 =
      Except.error e) :
    (evaluate evalFn batch candidate capture_traces results).1.scores.get? i = some 0 ∧
    (evaluate evalFn batch candidate capture_traces results).1.outputs.get? i =
      some (Output.ok (r.trace.getD []) ("Eval error: " ++ e)) ∧
    (evaluate evalFn batch candidate capture_traces results).1.scores.length = batch.length ∧
    (∀ j inst', batch.get? j = some inst' →
      (evaluate evalFn batch candidate capture_traces results).1.scores.get? j =
        some (evalStep evalFn results inst' j).score) := by
  have hstep : evalStep evalFn results inst i =
      { output := Output.ok (r.trace.getD []) ("Eval error: " ++ e), score := 0,
        traj := Trajectory.success
          (_run_eval evalFn inst.task inst.task_metadata (r.trace.getD [])).2.1
          (_run_eval evalFn inst.task inst.task_metadata (r.trace.getD [])).2.2
          (r.trace.getD []) 0 ("Eval error: " ++ e) r.execution_time_ms,
        inst := ⟨(_run_eval evalFn inst.task inst.task_metadata (r.trace.getD [])).2.1,
          (_run_eval evalFn inst.task inst.task_metadata (r.trace.getD [])).2.2⟩ } := by
    simp only [evalStep, hfound]
    rw [if_neg (by simp [hstatus]), herr]
  refine ⟨?_, ?_, ?_, ?_⟩
  · rw [evaluate_scores_get?, hinst]
    simp [hstep]
  · rw [evaluate_outputs_get?, hinst]
    simp [hstep]
  · simp [evaluate, evalLoop_length]
  · intro j inst' hj
    rw [evaluate_scores_get?, hj]
    rfl

/-- Sample scoring entry point that always raises. -/
def raisingFn : EvalFn := fun t m _ _ => ⟨Except.error "boom", t, m⟩

/-- Witness for claim C4: one completed task whose scoring raises
`"boom"`; the position is scored `0.0` with feedback
`"Eval error: boom"`. -/
theorem C4_witness :
    (evaluate raisingFn sampleBatch [] false [sampleResult0]).1.scores.get? 0 = some 0 ∧
    (evaluate raisingFn sampleBatch [] false [sampleResult0]).1.outputs.get? 0 =
      some (Output.ok (sampleResult0.trace.getD []) ("Eval error: " ++ "boom")) ∧
    (evaluate raisingFn sampleBatch [] false [sampleResult0]).1.scores.length =
      sampleBatch.length ∧
    (evaluate raisingFn sampleBatch [] false [sampleResult0]).1.scores.get? 0 =
      some (evalStep raisingFn [sampleResult0] ⟨[], []⟩ 0).score :=
  let h := C4_scoring_error_contained raisingFn sampleBatch [] false [sampleResult0] 0
    ⟨[], []⟩ sampleResult0 "boom" rfl rfl rfl rfl
  ⟨h.1, h.2.1, h.2.2.1, h.2.2.2 0 ⟨[], []⟩ rfl⟩

/-! Section: Claim C5 -/

/-- Sample scoring entry point that returns the out-of-range bare score
`2`. -/
def bigScoreFn : EvalFn := fun t m _ _ => ⟨Except.ok (PyVal.num 2), t, m⟩

/-- Counterexample to claim C5 as stated: the adapter never clamps or
checks the value returned by the scoring entry point, so an entry point
returning the bare number `2` yields a score of `2`, outside `[0, 1]`. -/
theorem C5_counterexample :
    ¬ (∀ s ∈ (evaluate bigScoreFn sampleBatch [] false [sampleResult0]).1.scores,
        0 ≤ s ∧ s ≤ 1) := by
  intro h
  have hs : (2 : ℚ) ∈ (evaluate bigScoreFn sampleBatch [] false [sampleResult0]).1.scores := by
    decide
  exact absurd (h 2 hs).2 (by decide)

/-- Claim C5 amended: every score returned by `evaluate` lies in
`[0.0, 1.0]` provided the scoring entry point only produces scores in
`[0.0, 1.0]`; missing or failed tasks and scoring errors are scored
`0.0`, which is in range, but a completed task's score is passed through
from the entry point unchecked. -/
theorem C5_scores_in_range (evalFn : EvalFn) (batch : List DataInst) (candidate : PyDict)
    (capture_traces : Bool) (results : List RolloutResult)
    (hrange : ∀ (task meta : PyDict) (trace : List Step) (q : ℚ) (f : String),
      (_run_eval evalFn task meta trace).1 = Except.ok (q, f) → 0 ≤ q ∧ q ≤ 1) :
    ∀ s ∈ (evaluate evalFn batch candidate capture_traces results).1.scores,
      0 ≤ s ∧ s ≤ 1 := by
  have hstep : ∀ (inst : DataInst) (i : ℕ),
      0 ≤ (evalStep evalFn results inst i).score ∧ (evalStep evalFn results inst i).score ≤ 1 := by
    intro inst i
    cases hfind : results.find? (fun r => r.task_id == taskIdOf i) with
    | none => simp [evalStep, hfind]
    | some r =>
        by_cases hst : r.status ≠ "completed"
        · simp only [evalStep, hfind]
          rw [if_pos hst]
          simp
        · simp only [evalStep, hfind]
          rw [if_neg hst]
          cases hrun : (_run_eval evalFn inst.task inst.task_metadata (r.trace.getD [])).1 with
          | ok p =>
              simp only [hrun]
              simpa using hrange inst.task inst.task_metadata (r.trace.getD []) p.1 p.2 hrun
          | error e => simp [hrun]
  intro s hs
  simp only [evaluate, List.mem_map] at hs
  obtain ⟨st, hmem, hscore⟩ := hs
  have : ∀ (b : List DataInst) (i : ℕ), st ∈ evalLoop evalFn results b i →
      0 ≤ st.score ∧ st.score ≤ 1 := by
    intro b
    induction b with
    | nil => intro i hmem; simp [evalLoop] at hmem
    | cons inst rest ih =>
        intro i hmem
        rcases (List.mem_cons.mp hmem) with heq | htail
        · rw [heq]; exact hstep inst i
        · exact ih (i + 1) htail
  rw [← hscore]
  exact this batch 0 hmem

/-- Witness for claim C5 (amended): an entry point returning the constant
bare score `1` keeps every score of a mixed batch in range. -/
theorem C5_witness :
    (1 : ℚ) ∈ (evaluate sampleFn [sampleInstA, sampleInstB] [] false sampleResults1).1.scores ∧
    (0 ≤ (1 : ℚ) ∧ (1 : ℚ) ≤ 1) :=
  ⟨by decide,
   C5_scores_in_range sampleFn [sampleInstA, sampleInstB] [] false sampleResults1
    (fun _ _ _ q f h => by
      have hq : q = 1 ∧ f = "" := by
        have := (Except.ok.injEq _ _).mp h.symm
        exact ⟨congrArg Prod.fst this, congrArg Prod.snd this⟩
      rw [hq.1]
      exact ⟨by norm_num, le_refl 1⟩)
    1 (by decide)⟩

/-! Section: Claim C6 -/

/-- Claim C6: both accepted return shapes of the scoring entry point
normalise to the same tuple form: a bare numeric score `v` becomes
`(float(v), "")` and a pair `(v, f)` with a string `f` becomes
`(float(v), f)` — for every task, metadata and trace. -/
theorem C6_return_value_normalization (evalFn : EvalFn) (v : ℚ) (f : String)
    (task meta : PyDict) (trace : List Step) :
    ((evalFn task meta ⟨trace, extract_agent_response trace⟩ none).ret =
        Except.ok (PyVal.num v) →
      (_run_eval evalFn task meta trace).1 = Except.ok (v, "")) ∧
    ((evalFn task meta ⟨trace, extract_agent_response trace⟩ none).ret =
        Except.ok (PyVal.tup [PyVal.num v, PyVal.str f]) →
      (_run_eval evalFn task meta trace).1 = Except.ok (v, f)) := by
  constructor
  · intro h
    simp [_run_eval, h, normalizeEvalResult, pyFloat]
  · intro h
    simp [_run_eval, h, normalizeEvalResult, pyFloat, pyStr]

/-- Scoring entry point returning a constant Python value and leaving its
argument dicts untouched. -/
def constEvalFn (v : PyVal) : EvalFn := fun t m _ _ => ⟨Except.ok v, t, m⟩

/-- Witness for claim C6 at the spec's own example: a bare `0.75` gives
`(0.75, "")` and the pair `(0.75, "good")` gives `(0.75, "good")`. -/
theorem C6_witness :
    (_run_eval (constEvalFn (PyVal.num (3 / 4))) [] [] []).1 = Except.ok (3 / 4, "") ∧
    (_run_eval (constEvalFn (PyVal.tup [PyVal.num (3 / 4), PyVal.str "good"])) [] [] []).1 =
      Except.ok (3 / 4, "good") :=
  ⟨(C6_return_value_normalization (constEvalFn (PyVal.num (3 / 4))) (3 / 4) "good"
      [] [] []).1 rfl,
   (C6_return_value_normalization (constEvalFn (PyVal.tup [PyVal.num (3 / 4), PyVal.str "good"]))
      (3 / 4) "good" [] [] []).2 rfl⟩

/-! Section: Claim C8 -/

/-- Test from the spec's words: a block whose type tag is `"text"`. -/
def blockIsText : JBlock → Bool
  | .dict ty _ => ty == some "text"
  | .nonDict => false

/-- Text carried by a block (empty for non-dict blocks). -/
def blockTextOf : JBlock → String
  | .dict _ tx => tx
  | .nonDict => ""

/-- Modelled from the spec's words, for comparison with `contentText`
(claim C8): a list of structured blocks renders as the in-order
concatenation of the text of the blocks whose type tag is `"text"`, any
other content is coerced to a string. -/
def specContentText : Content → String
  | .blocks bs => String.join ((bs.filter blockIsText).map blockTextOf)
  | .scalar s => s

theorem contentText_eq_spec (c : Content) : contentText c = specContentText c := by
  cases c with
  | scalar s => rfl
  | blocks bs =>
      simp only [contentText, specContentText]
      congr 1
      induction bs with
      | nil => rfl
      | cons b rest ih =>
          cases b with
          | nonDict => simpa [blockTextParts, blockIsText] using ih
          | dict ty tx =>
              by_cases h : ty = some "text"
              · simp [blockTextParts, blockIsText, blockTextOf, h] at ih ⊢
                exact ih
              · simp [blockTextParts, blockIsText, blockTextOf, h] at ih ⊢
                exact ih

theorem lastAssistantMsgs_eq_find? (msgs : List Msg) :
    lastAssistantMsgs msgs =
      (msgs.find? (fun m => m.role == some "assistant")).map
        (fun m => contentText m.content) := by
  induction msgs with
  | nil => rfl
  | cons m rest ih =>
      by_cases h : m.role = some "assistant"
      · simp [lastAssistantMsgs, List.find?, h]
      · have hb : (m.role == some "assistant") = false := by simp [h]
        simp [lastAssistantMsgs, List.find?, h, hb, ih]

theorem lastAssistantSteps_eq_find? (steps : List Step) :
    lastAssistantSteps steps =
      ((steps.flatMap (fun st => st.messages_added.reverse)).find?
          (fun m => m.role == some "assistant")).map
        (fun m => contentText m.content) := by
  induction steps with
  | nil => rfl
  | cons st rest ih =>
      simp only [lastAssistantSteps, lastAssistantMsgs_eq_find?, List.flatMap_cons,
        List.find?_append]
      cases hf : st.messages_added.reverse.find? (fun m => m.role == some "assistant") with
      | some m => rfl
      | none => simpa using ih

/-- Claim C8: final-response extraction returns the rendered content of
the last assistant-authored message when the trace is walked from the end
backward (steps, and each step's added messages, in reverse); list
content renders as the concatenated text of its `"text"`-tagged blocks,
other content as its string coercion; and the result is `""` when no
assistant message exists anywhere in the trace. -/
theorem C8_extract_last_assistant_response (trace : List Step) :
    extract_agent_response trace =
      match (trace.flatMap Step.messages_added).reverse.find?
          (fun m => m.role == some "assistant") with
      | some m => specContentText m.content
      | none => "" := by
  have hrev : (trace.flatMap Step.messages_added).reverse =
      trace.reverse.flatMap (fun st => st.messages_added.reverse) :=
    List.reverse_flatMap ..
  rw [extract_agent_response, lastAssistantSteps_eq_find?, hrev]
  cases (trace.reverse.flatMap (fun st => st.messages_added.reverse)).find?
      (fun m => m.role == some "assistant") with
  | none => rfl
  | some m => simp [contentText_eq_spec]

/-! Section: Claim C9 -/

/-- Sample scoring entry point that mutates the task dict it receives by
reference (Python: `task["mutated"] = "yes"`). -/
def mutatingFn : EvalFn := fun t m _ _ => ⟨Except.ok (PyVal.num 1), ("mutated", "yes") :: t, m⟩

/-- Counterexample to claim C9 as stated: the scoring entry point receives
the batch element's task and metadata dicts by reference, so an entry
point that mutates them leaves the batch changed after `evaluate`
returns — the claim's quantification over every scoring entry point
fails. -/
theorem C9_counterexample :
    (evaluate mutatingFn sampleBatch [] false [sampleResult0]).2 ≠ sampleBatch := by
  decide

/-- Claim C9 amended: `evaluate`'s own code mutates neither the candidate
(which it only reads and never hands to the scoring code) nor the batch;
the batch elements are unchanged after the call provided the scoring
entry point does not mutate the task and metadata dicts passed to it. -/
theorem C9_no_local_mutation (evalFn : EvalFn) (batch : List DataInst) (candidate : PyDict)
    (capture_traces : Bool) (results : List RolloutResult)
    (hpure : ∀ (t m : PyDict) (tr : TraceDict) (ctx : Option PyVal),
      (evalFn t m tr ctx).task = t ∧ (evalFn t m tr ctx).task_metadata = m) :
    (evaluate evalFn batch candidate capture_traces results).2 = batch := by
  have hstep : ∀ (inst : DataInst) (i : ℕ), (evalStep evalFn results inst i).inst = inst := by
    intro inst i
    cases hfind : results.find? (fun r => r.task_id == taskIdOf i) with
    | none => simp [evalStep, hfind]
    | some r =>
        by_cases hst : r.status ≠ "completed"
        · simp only [evalStep, hfind]
          rw [if_pos hst]
        · simp only [evalStep, hfind]
          rw [if_neg hst]
          have h1 := (hpure inst.task inst.task_metadata
            ⟨r.trace.getD [], extract_agent_response (r.trace.getD [])⟩ none).1
          have h2 := (hpure inst.task inst.task_metadata
            ⟨r.trace.getD [], extract_agent_response (r.trace.getD [])⟩ none).2
          simp [_run_eval, h1, h2]
  have hloop : ∀ (b : List DataInst) (i : ℕ),
      (evalLoop evalFn results b i).map StepOut.inst = b := by
    intro b
    induction b with
    | nil => intro i; rfl
    | cons inst rest ih => intro i; simp [evalLoop, hstep, ih]
  simpa [evaluate] using hloop batch 0

/-- Witness for claim C9 (amended): the sample entry point leaves its
dicts untouched, and the batch is unchanged after a completed
evaluation. -/
theorem C9_witness :
    (evaluate sampleFn sampleBatch [] false [sampleResult0]).2 = sampleBatch :=
  C9_no_local_mutation sampleFn sampleBatch [] false [sampleResult0]
    (fun _ _ _ _ => ⟨rfl, rfl⟩)

/-! Section: Claim C7 -/

theorem rdataInit_acc (comps : List String) :
    ∀ (acc : ReflectiveData), comps.Nodup →
      (∀ c ∈ comps, acc.any (fun p => p.1 == c) = false) →
      comps.foldl (fun d c => rdataSet d c []) acc = acc ++ comps.map (fun c => (c, [])) := by
  induction comps with
  | nil => intro acc _ _; simp
  | cons c rest ih =>
      intro acc hnd hfresh
      have hnotin : c ∉ rest := (List.nodup_cons.mp hnd).1
      have hset : rdataSet acc c [] = acc ++ [(c, [])] := by
        unfold rdataSet
        rw [if_neg (by simp [hfresh c (by simp)])]
      have hrest : ∀ c' ∈ rest, (acc ++ [(c, [])]).any (fun p => p.1 == c') = false := by
        intro c' hc'
        rw [List.any_append]
        have h1 := hfresh c' (by simp [hc'])
        have h2 : (c == c') = false := by
          simp only [beq_eq_false_iff_ne, ne_eq]
          intro he
          exact hnotin (he ▸ hc')
        simp [h1, h2]
      calc (c :: rest).foldl (fun d c => rdataSet d c []) acc
          = rest.foldl (fun d c => rdataSet d c []) (acc ++ [(c, [])]) := by
            rw [List.foldl_cons, hset]
        _ = acc ++ [(c, [])] ++ rest.map (fun c => (c, [])) :=
            ih (acc ++ [(c, [])]) (List.nodup_cons.mp hnd).2 hrest
        _ = acc ++ (c, []) :: rest.map (fun c => (c, [])) := by
            rw [List.append_assoc]; rfl

theorem rdataInit_eq (comps : List String) (hnd : comps.Nodup) :
    rdataInit comps = comps.map (fun c => (c, [])) := by
  have := rdataInit_acc comps [] hnd (fun c _ => rfl)
  simpa [rdataInit] using this

theorem foldl_rdataAppend (recf : String → ReflectiveRecord) :
    ∀ (cs : List String), cs.Nodup → ∀ (d : ReflectiveData),
      cs.foldl (fun d2 c => rdataAppend d2 c (recf c)) d =
        d.map (fun p => (p.1, p.2 ++ if p.1 ∈ cs then [recf p.1] else [])) := by
  intro cs
  induction cs with
  | nil =>
      intro _ d
      simp
  | cons c rest ih =>
      intro hnd d
      have hnotin : c ∉ rest := (List.nodup_cons.mp hnd).1
      rw [List.foldl_cons, ih (List.nodup_cons.mp hnd).2]
      unfold rdataAppend
      rw [List.map_map]
      apply List.map_congr_left
      intro p _
      by_cases hp : p.1 = c
      · have hpc : p.1 ∉ rest := hp ▸ hnotin
        simp [Function.comp, hp, hpc, List.mem_cons, hnotin]
      · simp [Function.comp, hp, List.mem_cons]

theorem trajAt_ok (trajs : Option (List Trajectory)) (n : ℕ)
    (h : trajs = none ∨ ∃ ts, trajs = some ts ∧ n < ts.length) :
    trajAt trajs n = Except.ok (specTrajAt trajs n) := by
  rcases h with h | ⟨ts, hts, hlen⟩
  · rw [h]; rfl
  · subst hts
    cases ts with
    | nil => simp at hlen
    | cons t rest =>
        have hget : (t :: rest)[n]? = some ((t :: rest)[n]) := List.getElem?_eq_getElem hlen
        simp [trajAt, specTrajAt, hget]

theorem mrdsLoop_spec (candidate : PyDict) (comps : List String)
    (trajs : Option (List Trajectory)) (hnd : comps.Nodup) :
    ∀ (pairs : List (Output × ℚ)) (i : ℕ) (f : String → List ReflectiveRecord),
      (∀ j, j < pairs.length → trajAt trajs (i + j) = Except.ok (specTrajAt trajs (i + j))) →
      mrdsLoop candidate comps trajs pairs i (comps.map (fun c => (c, f c))) =
        Except.ok (comps.map (fun c =>
          (c, f c ++ specComponentRecords candidate trajs c pairs i))) := by
  intro pairs
  induction pairs with
  | nil =>
      intro i f _
      simp [mrdsLoop, specComponentRecords]
  | cons pr rest ih =>
      intro i f htraj
      obtain ⟨o, s⟩ := pr
      have htraj0 : trajAt trajs i = Except.ok (specTrajAt trajs i) := by
        have := htraj 0 (by simp)
        simpa using this
      have htrajRest : ∀ j, j < rest.length →
          trajAt trajs (i + 1 + j) = Except.ok (specTrajAt trajs (i + 1 + j)) := by
        intro j hj
        have := htraj (j + 1) (by simp; omega)
        have e : i + (j + 1) = i + 1 + j := by omega
        rwa [e] at this
      by_cases hs : s < 1
      · have hfold : comps.foldl (fun d2 c =>
            rdataAppend d2 c (mkReflectiveRecord candidate (specTrajAt trajs i) o s c))
              (comps.map (fun c => (c, f c))) =
            comps.map (fun c =>
              (c, f c ++ [mkReflectiveRecord candidate (specTrajAt trajs i) o s c])) := by
          rw [foldl_rdataAppend _ comps hnd]
          rw [List.map_map]
          apply List.map_congr_left
          intro c hc
          simp [Function.comp, hc]
        have hmaps : comps.map (fun c =>
            (c, (f c ++ [mkReflectiveRecord candidate (specTrajAt trajs i) o s c]) ++
              specComponentRecords candidate trajs c rest (i + 1))) =
            comps.map (fun c =>
              (c, f c ++ specComponentRecords candidate trajs c ((o, s) :: rest) i)) := by
          apply List.map_congr_left
          intro c _
          simp only [specComponentRecords]
          rw [if_pos hs, List.append_assoc]
        simp only [mrdsLoop]
        rw [if_pos hs, htraj0]
        show mrdsLoop candidate comps trajs rest (i + 1)
            (comps.foldl (fun d2 c =>
              rdataAppend d2 c (mkReflectiveRecord candidate (specTrajAt trajs i) o s c))
              (comps.map (fun c => (c, f c)))) =
          Except.ok (comps.map (fun c =>
            (c, f c ++ specComponentRecords candidate trajs c ((o, s) :: rest) i)))
        rw [hfold]
        exact (ih (i + 1)
          (fun c => f c ++ [mkReflectiveRecord candidate (specTrajAt trajs i) o s c])
          htrajRest).trans (congrArg Except.ok hmaps)
      · have hmaps : comps.map (fun c =>
            (c, f c ++ specComponentRecords candidate trajs c rest (i + 1))) =
            comps.map (fun c =>
              (c, f c ++ specComponentRecords candidate trajs c ((o, s) :: rest) i)) := by
          apply List.map_congr_left
          intro c _
          simp only [specComponentRecords]
          rw [if_neg hs]
          rfl
        simp only [mrdsLoop]
        rw [if_neg hs]
        exact (ih (i + 1) f htrajRest).trans (congrArg Except.ok hmaps)

theorem specComponentRecords_lt_one (candidate : PyDict) (trajs : Option (List Trajectory))
    (c : String) :
    ∀ (pairs : List (Output × ℚ)) (i : ℕ) (r : ReflectiveRecord),
      r ∈ specComponentRecords candidate trajs c pairs i → r.score < 1 := by
  intro pairs
  induction pairs with
  | nil => intro i r hr; simp [specComponentRecords] at hr
  | cons pr rest ih =>
      intro i r hr
      obtain ⟨o, s⟩ := pr
      simp only [specComponentRecords, List.mem_append] at hr
      rcases hr with hr | hr
      · by_cases hs : s < 1
        · rw [if_pos hs] at hr
          simp at hr
          rw [hr]
          exact hs
        · rw [if_neg hs] at hr
          simp at hr
      · exact ih (i + 1) r hr

/-- Claim C7: for a distinct set of requested components and a
well-formed evaluation batch (trajectories absent or position-aligned),
`make_reflective_dataset` returns exactly one list per requested
component, the list holding — for every position whose score is strictly
below `1.0` — one record with that position's trajectory data (or empty
task and metadata when no trajectories were captured), output, score, the
candidate's current text for the component, and the output's embedded
feedback; and no record is ever emitted for a position whose score is
`1.0` (every emitted record's score is strictly below `1.0`). -/
theorem C7_reflective_dataset_characterization (candidate : PyDict) (eb : EvaluationBatch)
    (comps : List String) (hnd : comps.Nodup)
    (halign : eb.trajectories = none ∨
      ∃ ts, eb.trajectories = some ts ∧ ts.length = eb.outputs.length) :
    make_reflective_dataset candidate eb comps =
      Except.ok (comps.map (fun c =>
        (c, specComponentRecords candidate eb.trajectories c (eb.outputs.zip eb.scores) 0))) ∧
    (∀ (c : String) (r : ReflectiveRecord),
      r ∈ specComponentRecords candidate eb.trajectories c (eb.outputs.zip eb.scores) 0 →
        r.score < 1) := by
  constructor
  · unfold make_reflective_dataset
    rw [rdataInit_eq comps hnd]
    have htraj : ∀ j, j < (eb.outputs.zip eb.scores).length →
        trajAt eb.trajectories (0 + j) = Except.ok (specTrajAt eb.trajectories (0 + j)) := by
      intro j hj
      apply trajAt_ok
      rcases halign with h | ⟨ts, hts, hlen⟩
      · exact Or.inl h
      · refine Or.inr ⟨ts, hts, ?_⟩
        have : (eb.outputs.zip eb.scores).length ≤ eb.outputs.length := by
          rw [List.length_zip]
          exact Nat.min_le_left _ _
        omega
    have := mrdsLoop_spec candidate comps eb.trajectories hnd
      (eb.outputs.zip eb.scores) 0 (fun _ => []) htraj
    simpa using this
  · intro c r hr
    exact specComponentRecords_lt_one candidate eb.trajectories c _ 0 r hr

/-- Sample single-component candidate. -/
def sampleCandidate : PyDict := [("system_prompt", "X")]

/-- Sample evaluation batch with one failed position and no captured
trajectories. -/
def sampleEb : EvaluationBatch := ⟨[Output.error "Task not found"], [0], none⟩

/-- Witness for claim C7: one failed position, one requested component,
no captured trajectories. -/
theorem C7_witness :
    make_reflective_dataset sampleCandidate sampleEb ["system_prompt"] =
      Except.ok (["system_prompt"].map (fun c =>
        (c, specComponentRecords sampleCandidate sampleEb.trajectories c
          (sampleEb.outputs.zip sampleEb.scores) 0))) ∧
    (ReflectiveRecord.mk [] [] (Output.error "Task not found") 0 "X" "").score < 1 :=
  let h := C7_reflective_dataset_characterization sampleCandidate sampleEb ["system_prompt"]
    (by simp) (Or.inl rfl)
  ⟨h.1, h.2 "system_prompt" (ReflectiveRecord.mk [] [] (Output.error "Task not found") 0 "X" "")
    (by decide)⟩

end Iofold
